import Mathlib

/-!
Shallow embedding of `src/list_lambdas.py` (epsagon/list-lambdas).

Times are modelled as integer epoch milliseconds: the script handles
timestamps through `datetime.fromtimestamp(ms / 1000)` and
`timedelta.days`, which at millisecond resolution is the floor of the
difference divided by one day (86400000 ms); `Int.fdiv` is that floor
division. AWS responses are modelled as the data the script reads from
them, with `Option` for fields the script may find absent and
`Except Unit` for calls that may raise `ClientError`.
-/

deriving instance DecidableEq for Except

namespace ListLambdas

/-- `BYTE_TO_MB = 1024.0 * 1024.0` (line 16); exact as an integer. -/
def BYTE_TO_MB : Nat := 1024 * 1024

/-- `ALL_TABLE_HEADERS` (lines 18-28). -/
def ALL_TABLE_HEADERS : List String :=
  ["Region", "Function", "Memory (MB)", "Code Size (MB)", "Timeout (seconds)",
   "Runtime", "Last Modified", "Last Invocation", "Description"]

/-- `SORT_KEYS` (line 30). -/
def SORT_KEYS : List String :=
  ["region", "last-modified", "last-invocation", "runtime"]

/-- One element of `logs['logStreams']`: the script only reads the
optional `lastEventTimestamp` field (line 105). -/
structure LogStream where
  lastEventTimestamp : Option Int
deriving DecidableEq, Repr

/-- `get_last_invocation` (lines 82-111). The argument is the outcome of
`describe_log_streams`: `Except.error ()` models a raised `ClientError`,
`Except.ok streams` a successful response. Returns the last invocation
epoch-millis timestamp or `-1` when not found. -/
def get_last_invocation (query : Except Unit (List LogStream)) : Int :=
  match query with
  | Except.error _ => -1
  | Except.ok logStreams =>
    match logStreams.map (fun log => log.lastEventTimestamp.getD 0) with
    | [] => -1
    | t :: rest => rest.foldl max t

/-- `(datetime.now() - datetime_obj).days` at millisecond resolution:
`timedelta.days` is the floor of the difference in whole days. -/
def daysBetween (nowMillis thenMillis : Int) : Int :=
  Int.fdiv (nowMillis - thenMillis) 86400000

/-- `get_days_ago` (lines 66-79). -/
def get_days_ago (nowMillis dtMillis : Int) : String :=
  let days_ago := daysBetween nowMillis dtMillis
  if days_ago = 1 then "Yesterday"
  else if 1 < days_ago then toString days_ago ++ " days ago"
  else "Today"

/-! Helper lemmas about `List.foldl max`, used to characterise the
`max(log_streams_timestamp)` call. -/

lemma le_foldl_max (l : List Int) (a : Int) : a ≤ l.foldl max a := by
  induction l generalizing a with
  | nil => exact le_refl a
  | cons x xs ih => exact le_trans (le_max_left a x) (ih (max a x))

lemma foldl_max_le_of_mem {l : List Int} {x : Int} (a : Int) (hx : x ∈ l) :
    x ≤ l.foldl max a := by
  induction l generalizing a with
  | nil => cases hx
  | cons y ys ih =>
    rcases List.mem_cons.mp hx with rfl | hmem
    · exact le_trans (le_max_right a x) (le_foldl_max ys (max a x))
    · exact ih (max a y) hmem

lemma foldl_max_eq_or_mem (l : List Int) (a : Int) :
    l.foldl max a = a ∨ l.foldl max a ∈ l := by
  induction l generalizing a with
  | nil => exact Or.inl rfl
  | cons x xs ih =>
    rcases ih (max a x) with h | h
    · rcases max_choice a x with hm | hm
      · exact Or.inl (h.trans hm)
      · exact Or.inr (List.mem_cons.mpr (Or.inl (h.trans hm)))
    · exact Or.inr (List.mem_cons.mpr (Or.inr h))

/-- C3: the activity resolver returns the `-1` "unknown" marker exactly
when the log-stream query raises or returns zero streams; with at least
one stream it returns the maximum of the streams' `lastEventTimestamp`
fields, a missing field contributing `0`, and that maximum is
nonnegative — so the zero default never produces the unknown marker. -/
theorem c3_last_invocation (streams : List LogStream)
    (h : ∀ s ∈ streams, 0 ≤ s.lastEventTimestamp.getD 0) :
    get_last_invocation (Except.error ()) = -1 ∧
    (get_last_invocation (Except.ok streams) = -1 ↔ streams = []) ∧
    (streams ≠ [] →
      0 ≤ get_last_invocation (Except.ok streams) ∧
      (∀ s ∈ streams,
        s.lastEventTimestamp.getD 0 ≤ get_last_invocation (Except.ok streams)) ∧
      (∃ s ∈ streams,
        s.lastEventTimestamp.getD 0 = get_last_invocation (Except.ok streams))) := by
  refine ⟨rfl, ?_, ?_⟩
  · cases streams with
    | nil => simp [get_last_invocation]
    | cons s rest =>
      simp only [get_last_invocation, List.map]
      constructor
      · intro heq
        have h0 : 0 ≤ s.lastEventTimestamp.getD 0 :=
          h s (List.mem_cons.mpr (Or.inl rfl))
        have hle : s.lastEventTimestamp.getD 0 ≤
            (rest.map (fun log => log.lastEventTimestamp.getD 0)).foldl max
              (s.lastEventTimestamp.getD 0) :=
          le_foldl_max _ _
        omega
      · intro hcontra
        cases hcontra
  · intro hne
    cases streams with
    | nil => exact absurd rfl hne
    | cons s rest =>
      simp only [get_last_invocation, List.map]
      refine ⟨?_, ?_, ?_⟩
      · exact le_trans (h s (List.mem_cons.mpr (Or.inl rfl))) (le_foldl_max _ _)
      · intro s' hs'
        rcases List.mem_cons.mp hs' with rfl | hmem
        · exact le_foldl_max _ _
        · exact foldl_max_le_of_mem _
            (List.mem_map.mpr ⟨s', hmem, rfl⟩)
      · rcases foldl_max_eq_or_mem
            (rest.map (fun log => log.lastEventTimestamp.getD 0))
            (s.lastEventTimestamp.getD 0) with heq | hmem
        · exact ⟨s, List.mem_cons.mpr (Or.inl rfl), heq.symm⟩
        · rcases List.mem_map.mp hmem with ⟨s', hs', heq⟩
          exact ⟨s', List.mem_cons.mpr (Or.inr hs'), heq⟩

/-- Witness for C3 at a concrete stream list. -/
theorem c3_last_invocation_witness :
    (∀ s ∈ [LogStream.mk (some 5), LogStream.mk none],
        0 ≤ s.lastEventTimestamp.getD 0) ∧
    (get_last_invocation
        (Except.ok [LogStream.mk (some 5), LogStream.mk none]) = -1 ↔
      ([LogStream.mk (some 5), LogStream.mk none] : List LogStream) = []) := by
  refine ⟨by decide, ?_⟩
  exact (c3_last_invocation [LogStream.mk (some 5), LogStream.mk none]
    (by decide)).2.1

/-- The fields of one element of `response['Functions']` that the script
reads. `runtime` and `description` are `Option` because the script's own
access patterns allow them to be absent (`'Runtime' in function_data` is
tested, `function_data['Description']` is an unguarded lookup).
`lastModified` is the result of the `strptime` parse of `LastModified`
(line 175), abstracted to epoch milliseconds. `logsQuery` is the outcome
of `describe_log_streams` for this function's log group. -/
structure FunctionData where
  functionName : String
  memorySize : Nat
  codeSize : Nat
  timeout : Nat
  runtime : Option String
  description : Option String
  lastModified : Int
  logsQuery : Except Unit (List LogStream)
deriving DecidableEq, Repr

/-- The dict appended to `lambdas_data` (lines 196-202). -/
structure LambdaRecord where
  region : String
  functionData : FunctionData
  lastModified : Int
  lastInvocation : Int
  runtime : String
deriving DecidableEq, Repr

/-- Lines 187-193: with a known last invocation, the function is skipped
(`continue`) when `args.inactive_days_filter > inactive_days`. Returns
`true` when the function is kept. -/
def keptByFilter (nowMillis inactiveDaysFilter lastInvocation : Int) : Bool :=
  if lastInvocation ≠ -1 then
    if inactiveDaysFilter > daysBetween nowMillis lastInvocation then false
    else true
  else true

/-- The record built at lines 196-202. -/
def buildRecord (region : String) (f : FunctionData) (lastInvocation : Int) :
    LambdaRecord :=
  { region := region
    functionData := f
    lastModified := f.lastModified
    lastInvocation := lastInvocation
    runtime := f.runtime.getD "" }

/-- The `for function_data in functions` body (lines 173-202): resolve
activity, apply the inactivity filter, append the surviving records. -/
def processFunctions (nowMillis inactiveDaysFilter : Int) (region : String)
    (functions : List FunctionData) : List LambdaRecord :=
  functions.filterMap (fun f =>
    if keptByFilter nowMillis inactiveDaysFilter
        (get_last_invocation f.logsQuery) then
      some (buildRecord region f (get_last_invocation f.logsQuery))
    else none)

/-- One `list_functions` response: the `Functions` list and the optional
`NextMarker`. -/
structure Page where
  functions : List FunctionData
  nextMarker : Option String
deriving DecidableEq, Repr

/-- The `while next_marker != ''` loop (lines 167-207) for one region.
The argument lists the provider's responses in order: the head is the
first `list_functions()` response, the tail the responses to successive
`list_functions(Marker=...)` calls. An empty `Functions` list triggers
`continue` with `next_marker` still `''`, which exits the loop before
the `NextMarker` check; a present `NextMarker` fetches the next page. -/
def walkPages (nowMillis inactiveDaysFilter : Int) (region : String) :
    List Page → List LambdaRecord
  | [] => []
  | page :: rest =>
    if page.functions = [] then []
    else
      processFunctions nowMillis inactiveDaysFilter region page.functions ++
        match page.nextMarker with
        | some _ => walkPages nowMillis inactiveDaysFilter region rest
        | none => []

/-- The `for region in regions` loop (lines 163-207). Each region comes
with the outcome of its `list_functions` pagination; a raised
`ClientError` (`Except.error`) is not caught anywhere in
`print_lambda_list`, so it aborts the whole collection. -/
def collectRegions (nowMillis inactiveDaysFilter : Int) :
    List (String × Except Unit (List Page)) → Except Unit (List LambdaRecord)
  | [] => Except.ok []
  | (region, fetch) :: rest =>
    match fetch with
    | Except.error e => Except.error e
    | Except.ok pages =>
      match collectRegions nowMillis inactiveDaysFilter rest with
      | Except.error e => Except.error e
      | Except.ok tail =>
        Except.ok (walkPages nowMillis inactiveDaysFilter region pages ++ tail)

/-- `daysBetween` as Euclidean division (the divisor is positive, so
floor and Euclidean division agree). -/
lemma daysBetween_eq_ediv (a b : Int) :
    daysBetween a b = (a - b) / 86400000 := by
  unfold daysBetween
  rw [Int.fdiv_eq_ediv]
  decide

lemma keptByFilter_eq_false_iff (nowMillis m li : Int) :
    keptByFilter nowMillis m li = false ↔
      (li ≠ -1 ∧ daysBetween nowMillis li < m) := by
  unfold keptByFilter
  by_cases h1 : li ≠ -1 <;> by_cases h2 : m > daysBetween nowMillis li <;>
    simp [h1, h2]

lemma processFunctions_singleton (nowMillis m : Int) (region : String)
    (f : FunctionData) :
    processFunctions nowMillis m region [f] =
      if keptByFilter nowMillis m (get_last_invocation f.logsQuery) then
        [buildRecord region f (get_last_invocation f.logsQuery)]
      else [] := by
  simp only [processFunctions, List.filterMap_cons, List.filterMap_nil]
  by_cases hk : keptByFilter nowMillis m (get_last_invocation f.logsQuery) <;>
    simp [hk]

/-- C2: a function with known last invocation is dropped iff its
inactive-days count is strictly below the threshold; an unknown (`-1`)
last invocation is never dropped; with the default threshold `0`, a
function whose (known or unknown) last invocation is not in the future
is always retained. -/
theorem c2_inactivity_filter (nowMillis n : Int) (region : String)
    (f : FunctionData)
    (hpast : get_last_invocation f.logsQuery ≤ nowMillis) :
    (processFunctions nowMillis n region [f] = [] ↔
      (get_last_invocation f.logsQuery ≠ -1 ∧
        daysBetween nowMillis (get_last_invocation f.logsQuery) < n)) ∧
    processFunctions nowMillis 0 region [f] ≠ [] := by
  have hd0 : 0 ≤ daysBetween nowMillis (get_last_invocation f.logsQuery) := by
    rw [daysBetween_eq_ediv]
    exact Int.ediv_nonneg (by omega) (by decide)
  constructor
  · rw [processFunctions_singleton]
    by_cases hk : keptByFilter nowMillis n (get_last_invocation f.logsQuery) = true
    · rw [if_pos hk]
      constructor
      · intro he
        exact absurd he (List.cons_ne_nil _ _)
      · intro hcond
        rw [(keptByFilter_eq_false_iff nowMillis n
          (get_last_invocation f.logsQuery)).mpr hcond] at hk
        cases hk
    · have hkf : keptByFilter nowMillis n (get_last_invocation f.logsQuery) = false := by
        simpa using hk
      rw [if_neg hk]
      simpa using (keptByFilter_eq_false_iff nowMillis n
        (get_last_invocation f.logsQuery)).mp hkf
  · rw [processFunctions_singleton]
    by_cases hk : keptByFilter nowMillis 0 (get_last_invocation f.logsQuery) = true
    · rw [if_pos hk]
      exact List.cons_ne_nil _ _
    · have hkf : keptByFilter nowMillis 0 (get_last_invocation f.logsQuery) = false := by
        simpa using hk
      have hdrop := (keptByFilter_eq_false_iff nowMillis 0
        (get_last_invocation f.logsQuery)).mp hkf
      exact absurd hdrop.2 (not_lt.mpr hd0)

/-- A concrete function record: logs show a last invocation at epoch 0. -/
def exFunctionData : FunctionData :=
  { functionName := "fn"
    memorySize := 256
    codeSize := 2097152
    timeout := 30
    runtime := some "python3.8"
    description := some "demo"
    lastModified := 0
    logsQuery := Except.ok [LogStream.mk (some 0)] }

/-- Witness for C2: at threshold 0, a function last invoked 10 days ago
is retained. -/
theorem c2_inactivity_filter_witness :
    get_last_invocation exFunctionData.logsQuery ≤ 864000000 ∧
    processFunctions 864000000 0 "us-east-1" [exFunctionData] ≠ [] :=
  ⟨by decide,
   (c2_inactivity_filter 864000000 0 "us-east-1" exFunctionData (by decide)).2⟩

/-- C4 counterexample: a `ClientError` from `list_functions` in one
region is not caught — the whole collection aborts with the error, even
though another region has a function that would have produced a record. -/
theorem c4_counterexample :
    collectRegions 0 0
        [("r1", Except.error ()),
         ("r2", Except.ok [Page.mk [exFunctionData] none])] =
      Except.error () ∧
    walkPages 0 0 "r2" [Page.mk [exFunctionData] none] ≠ [] := by
  constructor
  · rfl
  · decide

/-- C4 (amended): an empty function list in one region contributes zero
records and the run continues with the remaining regions, but a
function-listing API error is not caught and aborts the whole run. -/
theorem c4_region_failure (nowMillis n : Int) (region : String)
    (rest : List (String × Except Unit (List Page))) :
    collectRegions nowMillis n ((region, Except.ok [Page.mk [] none]) :: rest) =
      collectRegions nowMillis n rest ∧
    collectRegions nowMillis n ((region, Except.error ()) :: rest) =
      Except.error () := by
  constructor
  · cases h : collectRegions nowMillis n rest <;>
      simp [collectRegions, h, walkPages]
  · rfl

/-- `markersChained pages` holds when every page except possibly the
last carries a `NextMarker`. -/
def markersChained : List Page → Bool
  | [] => true
  | [_] => true
  | p :: q :: rest => p.nextMarker.isSome && markersChained (q :: rest)

/-- C7 counterexample: a first page with an empty `Functions` list but a
present `NextMarker` stops pagination (`continue` skips the marker
check), so the function on the second page is never yielded even though
processing it would produce a record. -/
theorem c7_counterexample :
    walkPages 0 0 "r"
        [Page.mk [] (some "marker"), Page.mk [exFunctionData] none] = [] ∧
    processFunctions 0 0 "r" [exFunctionData] ≠ [] := by
  constructor
  · rfl
  · decide

lemma walkPages_cons (nowMillis i : Int) (region : String) (page : Page)
    (rest : List Page) :
    walkPages nowMillis i region (page :: rest) =
      if page.functions = [] then []
      else
        processFunctions nowMillis i region page.functions ++
          match page.nextMarker with
          | some _ => walkPages nowMillis i region rest
          | none => [] := rfl

/-- C7 (amended): when every page has a nonempty function list and every
page except the last carries a next-marker, pagination walks all pages
and yields every page's processed records in order. An empty page halts
pagination even when it carries a next-marker (see the counterexample). -/
theorem c7_pagination (nowMillis n : Int) (region : String) (pages : List Page)
    (hne : ∀ p ∈ pages, p.functions ≠ [])
    (hm : markersChained pages = true) :
    walkPages nowMillis n region pages =
      (pages.map (fun p => processFunctions nowMillis n region p.functions)).flatten := by
  induction pages with
  | nil => rfl
  | cons p rest ih =>
    have hp : p.functions ≠ [] := hne p (List.mem_cons.mpr (Or.inl rfl))
    cases rest with
    | nil =>
      cases hnm : p.nextMarker <;> simp [walkPages, hp, hnm]
    | cons q rest2 =>
      have hm2 : p.nextMarker.isSome = true ∧
          markersChained (q :: rest2) = true := by
        simpa [markersChained, Bool.and_eq_true] using hm
      have hrec := ih (fun x hx => hne x (List.mem_cons.mpr (Or.inr hx))) hm2.2
      cases hnm : p.nextMarker with
      | none =>
        rw [hnm] at hm2
        simp at hm2
      | some m =>
        rw [walkPages_cons, if_neg hp, hnm]
        show processFunctions nowMillis n region p.functions ++
            walkPages nowMillis n region (q :: rest2) = _
        rw [hrec]
        simp

/-- A two-page pagination with markers chained. -/
def exPages : List Page :=
  [Page.mk [exFunctionData] (some "m"), Page.mk [exFunctionData] none]

/-- Witness for C7 (amended) on a concrete two-page pagination. -/
theorem c7_pagination_witness :
    walkPages 0 0 "r" exPages =
      (exPages.map (fun p => processFunctions 0 0 "r" p.functions)).flatten :=
  c7_pagination 0 0 "r" exPages (by decide) (by decide)

/-- Rounding step of `'%.2f' % (CodeSize / BYTE_TO_MB)` (line 133).
For `b < 2^53` the Python float `b / 1048576.0` is exactly `b / 2^20`
(the divisor is a power of two), and `%.2f` rounds that exact value to
the nearest hundredth with ties to even; in hundredths the value is
`100 * b / 2^20 = 25 * b / 262144`. -/
def round2dp (b : Nat) : Nat :=
  if 25 * b % 262144 * 2 < 262144 then 25 * b / 262144
  else if 262144 < 25 * b % 262144 * 2 then 25 * b / 262144 + 1
  else if 25 * b / 262144 % 2 = 0 then 25 * b / 262144
  else 25 * b / 262144 + 1

/-- Two-digit zero-padded fractional part, as `%.2f` prints it. -/
def twoDigits (m : Nat) : String :=
  if m < 10 then "0" ++ toString m else toString m

/-- `'%.2f' % (b / BYTE_TO_MB)` (line 133). -/
def fmtFixed2 (b : Nat) : String :=
  toString (round2dp b / 100) ++ "." ++ twoDigits (round2dp b % 100)

/-- One data row of `all_table_data` (lines 122-139). The unguarded
`function_data['Description']` lookup makes the row construction fail
(`KeyError`) when the field is absent, hence the `Option`. -/
def tableRow (nowMillis : Int) (r : LambdaRecord) : Option (List String) :=
  match r.functionData.description with
  | none => none
  | some desc =>
    some [r.region,
          r.functionData.functionName,
          toString r.functionData.memorySize,
          fmtFixed2 r.functionData.codeSize,
          toString r.functionData.timeout,
          r.functionData.runtime.getD "",
          get_days_ago nowMillis r.lastModified,
          (if r.lastInvocation ≠ -1 then get_days_ago nowMillis r.lastInvocation
           else "N/A (no invocations?)"),
          "\"" ++ desc ++ "\""]

/-- The comprehension at lines 145-150:
`[row[0], row[1], row[5], row[-2], row[-1]]`, with Python's negative
indexing written out via the row length. Every row it is applied to has
nine entries, so the defaults are never reached. -/
def pickSummary (row : List String) : List String :=
  [row.getD 0 "", row.getD 1 "", row.getD 5 "",
   row.getD (row.length - 2) "", row.getD (row.length - 1) ""]

/-- `create_tables` (lines 114-152): build `all_table_data` (header
first), then `min_table_data` as either the whole table (`--all`) or the
per-row projection `pickSummary`. Returns
`(min_table_data, all_table_data)`. -/
def create_tables (nowMillis : Int) (lambdasData : List LambdaRecord)
    (shouldPrintAll : Bool) :
    Option (List (List String) × List (List String)) :=
  match lambdasData.mapM (tableRow nowMillis) with
  | none => none
  | some rows =>
    let all_table_data := ALL_TABLE_HEADERS :: rows
    let min_table_data :=
      if shouldPrintAll then all_table_data
      else all_table_data.map pickSummary
    some (min_table_data, all_table_data)

/-- A record as the aggregation loop would build it for
`exFunctionData`, but with an unknown (`-1`) last invocation. -/
def exRecord : LambdaRecord := buildRecord "r1" exFunctionData (-1)

/-- The full-table row `create_tables` produces for `exRecord` at
`now = 0`. -/
def exRow : List String :=
  ["r1", "fn", "256", "2.00", "30", "python3.8", "Today",
   "N/A (no invocations?)", "\"demo\""]

/-- C1: evaluating the summary projection shows its columns are Region,
Function, Runtime, Last Invocation, Description — not the Region,
Function, Last Modified, Last Invocation quartet that the claim (and the
comment at line 144 of the source) states: `row[5]` is the Runtime
column, Last Modified (`row[6]`) is skipped, and `row[-1]` drags in
Description. -/
theorem c1_summary_columns :
    pickSummary ALL_TABLE_HEADERS =
      ["Region", "Function", "Runtime", "Last Invocation", "Description"] ∧
    pickSummary ALL_TABLE_HEADERS ≠
      ["Region", "Function", "Last Modified", "Last Invocation"] ∧
    create_tables 0 [exRecord] false =
      some ([["Region", "Function", "Runtime", "Last Invocation", "Description"],
             ["r1", "fn", "python3.8", "N/A (no invocations?)", "\"demo\""]],
            [ALL_TABLE_HEADERS, exRow]) := by
  refine ⟨by decide, by decide, by decide⟩

/-- C8: the Code Size column is `fmtFixed2` of the record's byte count;
`BYTE_TO_MB` is exactly 1048576; the rounded hundredths value is within
half a hundredth of `100 * b / 1048576` (so it is `b / 1048576` rendered
to two decimals); and the rendered string is an integer part, a dot, and
exactly the two-digit fractional part. -/
theorem c8_code_size (nowMillis : Int) (r : LambdaRecord) (row : List String)
    (h : tableRow nowMillis r = some row) :
    row.get? 3 = some (fmtFixed2 r.functionData.codeSize) ∧
    BYTE_TO_MB = 1048576 ∧
    (∀ b : Nat, ((262144 : Int) * (round2dp b : Int) - 25 * (b : Int)).natAbs ≤ 131072) ∧
    (∀ b : Nat, ∃ ip fr, fr < 100 ∧ round2dp b = 100 * ip + fr ∧
      fmtFixed2 b = toString ip ++ "." ++ twoDigits fr) := by
  refine ⟨?_, by decide, ?_, ?_⟩
  · cases hd : r.functionData.description with
    | none =>
      unfold tableRow at h
      rw [hd] at h
      cases h
    | some desc =>
      unfold tableRow at h
      rw [hd] at h
      simp only [Option.some.injEq] at h
      subst h
      rfl
  · intro b
    unfold round2dp
    split_ifs with h1 h2 h3 <;> omega
  · intro b
    refine ⟨round2dp b / 100, round2dp b % 100, Nat.mod_lt _ (by decide), ?_, rfl⟩
    exact (Nat.div_add_mod (round2dp b) 100).symm

/-- Witness for C8: the concrete row for `exRecord`; 2097152 bytes
render as "2.00". -/
theorem c8_code_size_witness :
    tableRow 0 exRecord = some exRow ∧
    exRow.get? 3 = some (fmtFixed2 exRecord.functionData.codeSize) ∧
    fmtFixed2 2097152 = "2.00" :=
  ⟨by decide, (c8_code_size 0 exRecord exRow (by decide)).1, by decide⟩

/-- `exFunctionData` with the `Description` field absent from the
inventory response. -/
def exFunctionDataNoDesc : FunctionData :=
  { exFunctionData with description := none }

/-- C9 counterexample: a record whose inventory data lacks the
description field makes table creation fail (the unguarded
`function_data['Description']` lookup raises `KeyError`), instead of
displaying the empty string. -/
theorem c9_counterexample :
    create_tables 0 [buildRecord "r1" exFunctionDataNoDesc (-1)] false = none := by
  decide

/-- C9 (amended): when the description field is present, the full
table's description column is the description wrapped in quote
characters; when it is absent, row construction fails rather than
displaying an empty string. -/
theorem c9_description_column (nowMillis : Int) (r : LambdaRecord) :
    (∀ desc, r.functionData.description = some desc →
      ∃ row, tableRow nowMillis r = some row ∧
        row.get? 8 = some ("\"" ++ desc ++ "\"")) ∧
    (r.functionData.description = none → tableRow nowMillis r = none) := by
  constructor
  · intro desc hd
    refine ⟨[r.region,
             r.functionData.functionName,
             toString r.functionData.memorySize,
             fmtFixed2 r.functionData.codeSize,
             toString r.functionData.timeout,
             r.functionData.runtime.getD "",
             get_days_ago nowMillis r.lastModified,
             (if r.lastInvocation ≠ -1 then get_days_ago nowMillis r.lastInvocation
              else "N/A (no invocations?)"),
             "\"" ++ desc ++ "\""], ?_, rfl⟩
    unfold tableRow
    rw [hd]
  · intro hd
    unfold tableRow
    rw [hd]

/-- Witness for C9 (amended) at a concrete record. -/
theorem c9_description_column_witness :
    ∃ row, tableRow 0 exRecord = some row ∧
      row.get? 8 = some ("\"" ++ "demo" ++ "\"") :=
  (c9_description_column 0 exRecord).1 "demo" rfl

/-- The four legal `--sort-by` values; each selects the dict entry the
sort key function `lambda x: x[args.sort_by]` reads. -/
inductive SortKey where
  | region
  | lastModified
  | lastInvocation
  | runtime
deriving DecidableEq, Repr

/-- Which record field the string names (the dict keys at lines 196-202). -/
def SortKey.ofString (s : String) : Option SortKey :=
  if s = "region" then some SortKey.region
  else if s = "last-modified" then some SortKey.lastModified
  else if s = "last-invocation" then some SortKey.lastInvocation
  else if s = "runtime" then some SortKey.runtime
  else none

/-- The order `lambda x: x[args.sort_by]` sorts by. -/
def keyLe : SortKey → LambdaRecord → LambdaRecord → Prop
  | SortKey.region => fun a b => a.region ≤ b.region
  | SortKey.lastModified => fun a b => a.lastModified ≤ b.lastModified
  | SortKey.lastInvocation => fun a b => a.lastInvocation ≤ b.lastInvocation
  | SortKey.runtime => fun a b => a.runtime ≤ b.runtime

instance keyLeDecidable (k : SortKey) : DecidableRel (keyLe k) :=
  match k with
  | SortKey.region => fun a b => inferInstanceAs (Decidable (a.region ≤ b.region))
  | SortKey.lastModified =>
    fun a b => inferInstanceAs (Decidable (a.lastModified ≤ b.lastModified))
  | SortKey.lastInvocation =>
    fun a b => inferInstanceAs (Decidable (a.lastInvocation ≤ b.lastInvocation))
  | SortKey.runtime => fun a b => inferInstanceAs (Decidable (a.runtime ≤ b.runtime))

instance keyLeTotal (k : SortKey) : IsTotal LambdaRecord (keyLe k) := by
  cases k <;> exact ⟨fun _a _b => le_total _ _⟩

instance keyLeTrans (k : SortKey) : IsTrans LambdaRecord (keyLe k) := by
  cases k <;> exact ⟨fun _a _b _c hab hbc => le_trans hab hbc⟩

/-- `lambdas_data.sort(key=lambda x: x[args.sort_by])` (line 210):
CPython's `list.sort` is an ascending stable sort; insertion sort along
a decidable total preorder is its specification. -/
def sortRecords (k : SortKey) (l : List LambdaRecord) : List LambdaRecord :=
  List.insertionSort (keyLe k) l

/-- C5: for every valid sort key the output is non-decreasing in that
key, is a permutation of the input, and any two records with equal key
values keep their original relative order (stability). -/
theorem c5_sort (k : SortKey) (l : List LambdaRecord) :
    List.Sorted (keyLe k) (sortRecords k l) ∧
    (sortRecords k l).Perm l ∧
    ∀ a b : LambdaRecord, keyLe k a b → keyLe k b a →
      List.Sublist [a, b] l → List.Sublist [a, b] (sortRecords k l) :=
  ⟨List.sorted_insertionSort (keyLe k) l,
   List.perm_insertionSort (keyLe k) l,
   fun a b hab _ hsub => List.pair_sublist_insertionSort hab hsub⟩

/-- A record discovered in a second region, tied with `exRecord` on the
last-invocation key. -/
def exRecord2 : LambdaRecord := buildRecord "r2" exFunctionData (-1)

/-- Witness for C5: a tied pair keeps its order through the sort. -/
theorem c5_sort_witness :
    List.Sorted (keyLe SortKey.lastInvocation)
      (sortRecords SortKey.lastInvocation [exRecord, exRecord2]) ∧
    List.Sublist [exRecord, exRecord2]
      (sortRecords SortKey.lastInvocation [exRecord, exRecord2]) :=
  ⟨(c5_sort SortKey.lastInvocation [exRecord, exRecord2]).1,
   (c5_sort SortKey.lastInvocation [exRecord, exRecord2]).2.2 exRecord exRecord2
     (by decide) (by decide) (List.Sublist.refl _)⟩

/-- The argparse namespace fields the script reads (lines 225-295).
Absent optional string flags are `none`; argparse never inserts empty
strings on its own. -/
structure Args where
  shouldPrintAll : Bool
  csv : Option String
  tokenKeyId : Option String
  tokenSecret : Option String
  inactiveDaysFilter : Int
  sortBy : String
  profile : Option String
deriving DecidableEq, Repr

/-- How `init_boto_client` ends up constructing the client. -/
inductive CredSource where
  | staticKeys (keyId secret : String)
  | profileSession (profileName : String)
  | defaultChain
deriving DecidableEq, Repr

/-- Python truthiness of an optional string: `None` and `''` are falsy. -/
def truthy : Option String → Bool
  | none => false
  | some s => !s.isEmpty

/-- `init_boto_client` (lines 42-63): static keys only when both are
truthy, else the named profile when truthy, else the default chain. -/
def init_boto_client (args : Args) : CredSource :=
  if truthy args.tokenKeyId && truthy args.tokenSecret then
    CredSource.staticKeys (args.tokenKeyId.getD "") (args.tokenSecret.getD "")
  else if truthy args.profile then
    CredSource.profileSession (args.profile.getD "")
  else
    CredSource.defaultChain

/-- C10: when exactly one of the two static-credential flags is
supplied, client construction raises no error and ignores the partial
credentials, using the profile when one is given and the default chain
otherwise. -/
theorem c10_partial_static_credentials (args : Args)
    (h : args.tokenKeyId.isSome ≠ args.tokenSecret.isSome) :
    init_boto_client args =
      if truthy args.profile then
        CredSource.profileSession (args.profile.getD "")
      else CredSource.defaultChain := by
  have hfalse : (truthy args.tokenKeyId && truthy args.tokenSecret) = false := by
    cases hk : args.tokenKeyId with
    | none => simp [truthy]
    | some s =>
      cases hs : args.tokenSecret with
      | none => simp [truthy]
      | some t =>
        rw [hk, hs] at h
        simp at h
  simp only [init_boto_client, hfalse, Bool.false_eq_true, if_false]

/-- Arguments with only the key id supplied and a profile named. -/
def exArgsProfile : Args :=
  { shouldPrintAll := false
    csv := none
    tokenKeyId := some "AKIA"
    tokenSecret := none
    inactiveDaysFilter := 0
    sortBy := "region"
    profile := some "dev" }

/-- Witness for C10: key id without secret falls back to the profile. -/
theorem c10_partial_static_credentials_witness :
    init_boto_client exArgsProfile = CredSource.profileSession "dev" :=
  (c10_partial_static_credentials exArgsProfile (by decide)).trans (by decide)

/-- What a run of `__main__` does. -/
inductive MainOutcome where
  | exited (message : String) (exitCode : Nat)
  | ran (result : Option (List (List String) × List (List String)))
deriving DecidableEq, Repr

/-- `print_lambda_list` (lines 155-222) up to the table data it renders:
collect across regions, sort by the requested key, build both tables.
The uncaught failure modes (a region listing error, an unknown sort
key's `KeyError`, a missing description) are conflated into `none`. -/
def print_lambda_list (nowMillis : Int) (args : Args)
    (regions : List (String × Except Unit (List Page))) :
    Option (List (List String) × List (List String)) :=
  match collectRegions nowMillis args.inactiveDaysFilter regions with
  | Except.error _ => none
  | Except.ok lambdasData =>
    match SortKey.ofString args.sortBy with
    | none => none
    | some k =>
      create_tables nowMillis (sortRecords k lambdasData) args.shouldPrintAll

/-- The `__main__` guard (lines 295-300): an unrecognized `--sort-by`
prints an error naming the illegal value and exits with status 1;
`print_lambda_list` — and with it all API access — runs only otherwise. -/
def mainEntry (nowMillis : Int) (args : Args)
    (regions : List (String × Except Unit (List Page))) : MainOutcome :=
  if args.sortBy ∉ SORT_KEYS then
    MainOutcome.exited ("ERROR: Illegal column name: " ++ args.sortBy ++ ".") 1
  else
    MainOutcome.ran (print_lambda_list nowMillis args regions)

/-- C6: a `--sort-by` value outside the four legal keys makes the run
exit with the error message naming the value and status 1, and the
pipeline (network access and aggregation) never runs. -/
theorem c6_invalid_sort_key (nowMillis : Int) (args : Args)
    (regions : List (String × Except Unit (List Page)))
    (h : args.sortBy ∉ SORT_KEYS) :
    mainEntry nowMillis args regions =
      MainOutcome.exited ("ERROR: Illegal column name: " ++ args.sortBy ++ ".") 1 ∧
    ∀ result, mainEntry nowMillis args regions ≠ MainOutcome.ran result := by
  have he : mainEntry nowMillis args regions =
      MainOutcome.exited ("ERROR: Illegal column name: " ++ args.sortBy ++ ".") 1 := by
    unfold mainEntry
    rw [if_pos h]
  refine ⟨he, fun result hr => ?_⟩
  rw [he] at hr
  cases hr

/-- Arguments carrying an illegal sort key. -/
def exArgsBadSort : Args :=
  { exArgsProfile with sortBy := "name" }

/-- Witness for C6 at the illegal key "name". -/
theorem c6_invalid_sort_key_witness :
    "name" ∉ SORT_KEYS ∧
    mainEntry 0 exArgsBadSort [] =
      MainOutcome.exited ("ERROR: Illegal column name: " ++ "name" ++ ".") 1 :=
  ⟨by decide, (c6_invalid_sort_key 0 exArgsBadSort [] (by decide)).1⟩

end ListLambdas
